import Mathlib

/-!
# Verification of the Siemens Opcenter partner-scraper extraction core

Shallow embedding of `src/main.py` (`PartnerScraper`): text normalization
(`clean_text`), email validation (`validate_email`), address-component
splitting (`extract_address_components`), per-row field extraction
(`parse_partner_row`) and document segmentation (`parse_all_partners`).

HTML fragments are modelled as a tree of elements and text nodes; the
BeautifulSoup queries used by the source (`find` / `find_all` by tag and
class, partial-match id lookup, `get_text`, `stripped_strings`,
`find_parent`) are modelled as pre-order tree searches.
-/

namespace Scraper

/-! ## Character classes (ASCII scope, as used by the source's regexes) -/

/-- Python `str.strip()` / regex `\s` whitespace, ASCII scope. -/
def pyIsSpace (c : Char) : Bool :=
  c = ' ' || c = '\t' || c = '\n' || c = '\r' || c = '\x0b' || c = '\x0c'

/-- A character kept by `clean_text`'s second substitution: the complement of
`[^\w\s.,;?!@\-_+()/#]`, i.e. word chars, whitespace, or the listed symbols. -/
def isAllowedChar (c : Char) : Bool :=
  c.isAlphanum || c = '_' || pyIsSpace c ||
  c = '.' || c = ',' || c = ';' || c = '?' || c = '!' || c = '@' ||
  c = '-' || c = '+' || c = '(' || c = ')' || c = '/' || c = '#'

/-- Local-part class of the email regex: `[a-zA-Z0-9._%+-]`. -/
def isLocalChar (c : Char) : Bool :=
  c.isAlphanum || c = '.' || c = '_' || c = '%' || c = '+' || c = '-'

/-- Domain class of the email regex: `[a-zA-Z0-9.-]`. -/
def isDomainChar (c : Char) : Bool :=
  c.isAlphanum || c = '.' || c = '-'

/-! ## Whitespace handling on character lists -/

/-- `re.sub(r'\s+', ' ', ·)`: every maximal whitespace run becomes one space. -/
def collapseWs : List Char → List Char
  | [] => []
  | [c] => [if pyIsSpace c then ' ' else c]
  | c :: d :: cs =>
    if pyIsSpace c then
      if pyIsSpace d then collapseWs (d :: cs)
      else ' ' :: collapseWs (d :: cs)
    else c :: collapseWs (d :: cs)

/-- Python `str.strip()` on a character list. -/
def pyStripL (cs : List Char) : List Char :=
  ((cs.dropWhile pyIsSpace).reverse.dropWhile pyIsSpace).reverse

/-- Python `str.strip()` on a string. -/
def pyStrip (s : String) : String :=
  ⟨pyStripL s.data⟩

/-- Python `str.lower()` (ASCII scope). -/
def pyLower (s : String) : String :=
  ⟨s.data.map Char.toLower⟩

/-- `PartnerScraper.clean_text`: strip, collapse whitespace runs to single
spaces, then drop every character outside the allowed set. -/
def clean_text (s : String) : String :=
  if s = "" then ""
  else ⟨(collapseWs (pyStripL s.data)).filter isAllowedChar⟩

/-! ## Email validation (`PartnerScraper.validate_email`) -/

/-- Matcher for `^[a-zA-Z0-9._%+-]+@[a-zA-Z0-9.-]+\.[a-zA-Z]{2,}$`:
split at the first `@` (the local class excludes `@`), then split the rest at
its last `.` (the top-level label is all letters, so it follows the last dot). -/
def emailShape (cs : List Char) : Bool :=
  match cs.dropWhile (· != '@') with
  | '@' :: r =>
    (match r.reverse.dropWhile (· != '.') with
     | '.' :: dRev =>
       !(cs.takeWhile (· != '@')).isEmpty &&
       (cs.takeWhile (· != '@')).all isLocalChar &&
       !dRev.isEmpty && dRev.all isDomainChar &&
       decide (2 ≤ (r.reverse.takeWhile (· != '.')).length) &&
       (r.reverse.takeWhile (· != '.')).all Char.isAlpha
     | _ => false)
  | _ => false

/-- `PartnerScraper.validate_email`: lower-case and strip, keep only a string
matching the email shape, otherwise return `""`. -/
def validate_email (email : String) : String :=
  if email = "" then ""
  else
    let e := pyStrip (pyLower email)
    if emailShape e.data then e else ""

/-! ## HTML fragment model

An element node carries its tag, its attributes and its children; a text
node carries a string.  BeautifulSoup's `find` / `find_all` are pre-order
searches over the strict descendants of the queried node. -/

mutual

inductive Node where
  | elem (tag : String) (attrs : List (String × String)) (children : NodeList)
  | text (s : String)

inductive NodeList where
  | nil
  | cons (hd : Node) (tl : NodeList)

end

/-- Build a `NodeList` from a `List Node` (for writing concrete fragments). -/
def nodes : List Node → NodeList
  | [] => .nil
  | n :: ns => .cons n (nodes ns)

/-- First value bound to attribute `k`, if any (attributes form a dict). -/
def attr? (n : Node) (k : String) : Option String :=
  match n with
  | .elem _ attrs _ => (attrs.find? (fun p => p.1 == k)).map Prod.snd
  | .text _ => none

/-- Split a character list into its maximal whitespace-free runs
(Python `str.split()` with no argument); `acc` holds the current run
reversed. -/
def splitWsAux : List Char → List Char → List String
  | [], acc => if acc.isEmpty then [] else [⟨acc.reverse⟩]
  | c :: cs, acc =>
    if pyIsSpace c then
      (if acc.isEmpty then [] else [⟨acc.reverse⟩]) ++ splitWsAux cs []
    else splitWsAux cs (c :: acc)

/-- The whitespace-separated words of a character list. -/
def splitWs (cs : List Char) : List String := splitWsAux cs []

/-- BeautifulSoup `class_=c` matching: `c` occurs among the element's
whitespace-separated classes. -/
def hasClass (n : Node) (c : String) : Bool :=
  match attr? n "class" with
  | some v => (splitWs v.data).contains c
  | none => false

/-- Python `str.startswith` (on full strings). -/
def pyStartsWith (s pre : String) : Bool := pre.data.isPrefixOf s.data

def isTag (t : String) (n : Node) : Bool :=
  match n with
  | .elem tg _ _ => tg == t
  | .text _ => false

/-- `needle.isPrefixOf` at some position of the haystack (Python `in`). -/
def infixOf (needle : List Char) : List Char → Bool
  | [] => needle.isEmpty
  | c :: cs => needle.isPrefixOf (c :: cs) || infixOf needle cs

/-- The element has an `id` attribute whose value contains `sub`. -/
def idContains (n : Node) (sub : String) : Bool :=
  match attr? n "id" with
  | some i => infixOf sub.data i.data
  | none => false

mutual

/-- The text fragments (navigable strings) of a subtree, in document order. -/
def textFragments : Node → List String
  | .text s => [s]
  | .elem _ _ cs => textFragmentsList cs

def textFragmentsList : NodeList → List String
  | .nil => []
  | .cons c cs => textFragments c ++ textFragmentsList cs

end

/-- BeautifulSoup `get_text()`: concatenation of all text fragments. -/
def getText (n : Node) : String :=
  String.join (textFragments n)

/-- BeautifulSoup `stripped_strings`: each fragment stripped, empties dropped. -/
def strippedStrings (n : Node) : List String :=
  ((textFragments n).map pyStrip).filter (· != "")

/-- BeautifulSoup `get_text(strip=True)`. -/
def getTextStrip (n : Node) : String :=
  String.join (strippedStrings n)

mutual

/-- `find(p)`: first strict descendant satisfying `p`, in pre-order. -/
def findInNode (p : Node → Bool) : Node → Option Node
  | .text _ => none
  | .elem _ _ cs => findInList p cs

def findInList (p : Node → Bool) : NodeList → Option Node
  | .nil => none
  | .cons c cs =>
    if p c then some c
    else
      match findInNode p c with
      | some r => some r
      | none => findInList p cs

end

mutual

/-- `find_all(p)`: all strict descendants satisfying `p`, in pre-order. -/
def findAllInNode (p : Node → Bool) : Node → List Node
  | .text _ => []
  | .elem _ _ cs => findAllInList p cs

def findAllInList (p : Node → Bool) : NodeList → List Node
  | .nil => []
  | .cons c cs => (if p c then [c] else []) ++ findAllInNode p c ++ findAllInList p cs

end

/-! ## Regex searches used by the extractor -/

/-- Drop a literal prefix, or fail. -/
def dropLit (lit cs : List Char) : Option (List Char) :=
  if lit.isPrefixOf cs then some (cs.drop lit.length) else none

/-- Match `sortScore\s*:\s*(\d+\.?\d*)` anchored at the current position,
returning capture group 1. -/
def sortScoreAt (cs : List Char) : Option String :=
  match dropLit "sortScore".data cs with
  | none => none
  | some r1 =>
    match r1.dropWhile pyIsSpace with
    | ':' :: r3 =>
      let r4 := r3.dropWhile pyIsSpace
      let ds := r4.takeWhile Char.isDigit
      if ds.isEmpty then none
      else
        match r4.dropWhile Char.isDigit with
        | '.' :: r6 => some ⟨ds ++ '.' :: r6.takeWhile Char.isDigit⟩
        | _ => some ⟨ds⟩
    | _ => none

/-- `re.search(r'sortScore\s*:\s*(\d+\.?\d*)', ·)`: leftmost match. -/
def searchSortScore : List Char → Option String
  | [] => none
  | c :: cs =>
    match sortScoreAt (c :: cs) with
    | some v => some v
    | none => searchSortScore cs

/-- Match `Locations:\s*(\d+)` anchored at the current position. -/
def locationsAt (cs : List Char) : Option String :=
  match dropLit "Locations:".data cs with
  | none => none
  | some r1 =>
    let ds := (r1.dropWhile pyIsSpace).takeWhile Char.isDigit
    if ds.isEmpty then none else some ⟨ds⟩

/-- `re.search(r'Locations:\s*(\d+)', ·)`: leftmost match. -/
def searchLocations : List Char → Option String
  | [] => none
  | c :: cs =>
    match locationsAt (c :: cs) with
    | some v => some v
    | none => searchLocations cs

/-! ## The record and the per-field extraction rules of `parse_partner_row` -/

structure PartnerRecord where
  number : String
  siemensBatch : String
  name : String
  partnerBatch : String
  locations : String
  officeAddress : String
  contactName : String
  contactEmail : String
  contactTelephone : String
  contactWebsite : String
  procedSpecialization : String
deriving DecidableEq

/-- The record as the ordered key/value dict the source returns. -/
def recordPairs (r : PartnerRecord) : List (String × String) :=
  [("Number", r.number),
   ("Siemens Batch", r.siemensBatch),
   ("Name", r.name),
   ("Partner Batch", r.partnerBatch),
   ("Locations", r.locations),
   ("Office address", r.officeAddress),
   ("Contact Name", r.contactName),
   ("Contact Email", r.contactEmail),
   ("Contact Telephone", r.contactTelephone),
   ("Contact website", r.contactWebsite),
   ("Proced Specialization", r.procedSpecialization)]

/-- The record every field of which is `""` (the row-level failure result). -/
def emptyRecord : PartnerRecord :=
  ⟨"", "", "", "", "", "", "", "", "", "", ""⟩

def spanClass (c : String) (n : Node) : Bool := isTag "span" n && hasClass n c
def tdClass (c : String) (n : Node) : Bool := isTag "td" n && hasClass n c
def liGroupItem (n : Node) : Bool := isTag "li" n && hasClass n "list-group-item"
def aWithHref (n : Node) : Bool := isTag "a" n && (attr? n "href").isSome
def aPartnerName (n : Node) : Bool :=
  isTag "a" n && hasClass n "pl-results-partner-name"
def spanPartnerType (n : Node) : Bool :=
  isTag "span" n && idContains n "resultsPartnerType"

def numberField (frag : Node) : String :=
  match findInNode (spanClass "pl-results-row-no") frag with
  | some tg => clean_text (getText tg)
  | none => ""

def siemensBatchField (frag : Node) : String :=
  match findInNode (tdClass "sf-hidden") frag with
  | some td =>
    match searchSortScore (getTextStrip td).data with
    | some v => v
    | none => ""
  | none => ""

def nameField (frag : Node) : String :=
  match findInNode aPartnerName frag with
  | some tg => clean_text (getText tg)
  | none => ""

def partnerBatchField (frag : Node) : String :=
  match findInNode spanPartnerType frag with
  | some sp =>
    String.intercalate ", "
      ((findAllInNode liGroupItem sp).map (fun li => clean_text (getText li)))
  | none => ""

def locationsField (frag : Node) : String :=
  match findInNode (spanClass "pl-results-partner-info") frag with
  | some info =>
    match findInNode (spanClass "pl-results-partner-count") info with
    | some cnt =>
      match searchLocations (getTextStrip cnt).data with
      | some v => v
      | none => ""
    | none => ""
  | none => ""

def officeAddressField (frag : Node) : String :=
  match findInNode (spanClass "pl-results-td-address-plocez__Mailing_Address__c") frag with
  | some sp =>
    match findInNode (spanClass "pl-results-value") sp with
    | some _ => clean_text (getText sp)
    | none => ""
  | none => ""

def contactNameField (frag : Node) : String :=
  match findInNode (spanClass "pl-results-td-contact-plocez__Contact__c") frag with
  | some sp =>
    match findInNode (spanClass "pl-results-value") sp with
    | some detail => clean_text (getText detail)
    | none => ""
  | none => ""

def contactEmailField (frag : Node) : String :=
  match findInNode (spanClass "pl-results-td-contact-plocez__Email__c") frag with
  | some sp =>
    match findInNode aWithHref sp with
    | some mailto => validate_email (getText mailto)
    | none => ""
  | none => ""

def contactTelephoneField (frag : Node) : String :=
  match findInNode (spanClass "pl-results-td-contact-plocez__Phone__c") frag with
  | some sp =>
    match findInNode aWithHref sp with
    | some link => clean_text (getText link)
    | none => ""
  | none => ""

def contactWebsiteField (frag : Node) : String :=
  match findInNode (spanClass "pl-results-td-contact-PLP_Website__c") frag with
  | some sp =>
    match findInNode aWithHref sp with
    | some link =>
      let href := (attr? link "href").getD ""
      if pyStartsWith href "http://" || pyStartsWith href "https://" then href else ""
    | none => ""
  | none => ""

/-- Code-point lexicographic `≤` on character lists (Python string order). -/
def lexLeL : List Char → List Char → Bool
  | [], _ => true
  | _ :: _, [] => false
  | a :: as, b :: bs => if a = b then lexLeL as bs else decide (a < b)

/-- Python's `≤` on strings: code-point lexicographic. -/
abbrev StrLe (a b : String) : Prop := lexLeL a.data b.data = true

/-- The cleaned list-item texts of the specialization container. -/
def specItems (cont : Node) : List String :=
  (findAllInNode liGroupItem cont).map (fun li => clean_text (getText li))

/-- `sorted(set(...))` over the non-empty cleaned items. -/
def specSortedList (cont : Node) : List String :=
  (((specItems cont).filter (· != "")).dedup).insertionSort StrLe

def procedSpecializationField (frag : Node) : String :=
  match findInNode (spanClass "pl-results-td-account-Product_Specialization__c") frag with
  | some cont => String.intercalate ", " (specSortedList cont)
  | none => String.intercalate ", " ([] : List String)

/-- `PartnerScraper.parse_partner_row`.  The argument is `some frag` for a
fragment the markup parser accepted, `none` for a fragment-wide parse failure
or unexpected mid-extraction exception (the source's `except` branch). -/
def parse_partner_row : Option Node → PartnerRecord
  | none => emptyRecord
  | some frag =>
    { number := numberField frag
      siemensBatch := siemensBatchField frag
      name := nameField frag
      partnerBatch := partnerBatchField frag
      locations := locationsField frag
      officeAddress := officeAddressField frag
      contactName := contactNameField frag
      contactEmail := contactEmailField frag
      contactTelephone := contactTelephoneField frag
      contactWebsite := contactWebsiteField frag
      procedSpecialization := procedSpecializationField frag }

/-! ## Address-component split (`extract_address_components`) -/

/-- Python `str.split(',')` on a character list: always a non-empty list of
(possibly empty) pieces. -/
def splitComma : List Char → List (List Char)
  | [] => [[]]
  | c :: cs =>
    if c = ',' then [] :: splitComma cs
    else
      match splitComma cs with
      | w :: ws => (c :: w) :: ws
      | [] => [[c]]

/-- The component logic of `extract_address_components`, applied to the
ordered non-empty stripped parts. -/
def splitAddressParts (parts : List String) : String × String × String × String :=
  let street := parts.getD 0 ""
  let city := parts.getD 1 ""
  let sc :=
    match parts.get? 2 with
    | none => ("", "")
    | some p2 =>
      match splitComma p2.data with
      | [a, b] => (pyStrip ⟨a⟩, pyStrip ⟨b⟩)
      | _ => (p2, "")
  let state := sc.1
  let country := if 4 ≤ parts.length && sc.2 == "" then parts.getD 3 "" else sc.2
  (clean_text street, clean_text city, clean_text state, clean_text country)

/-- `PartnerScraper.extract_address_components`: `none` stands for a missing
(falsy) `address_td` or for the caught-exception path, both of which return
four empty components in the source. -/
def extract_address_components : Option Node → String × String × String × String
  | none => ("", "", "", "")
  | some td =>
    match findInNode (spanClass "pl-results-td-contact-plocez__Address__c") td with
    | none => ("", "", "", "")
    | some sp =>
      splitAddressParts (((strippedStrings sp).map pyStrip).filter (· != ""))

/-! ## Document segmentation (`parse_all_partners`) -/

/-- The row-index marker cell (`td.pl-results-td-row-no`). -/
def isMarkerTd (n : Node) : Bool := tdClass "pl-results-td-row-no" n

def isTrElem (n : Node) : Bool := isTag "tr" n

mutual

/-- Collect every marker descendant together with its nearest enclosing `tr`
ancestor (BeautifulSoup `find_parent("tr")`), in document order.  `anc` is
the ancestor stack, innermost first. -/
def collectPairsNode (anc : List Node) : Node → List (Node × Option Node)
  | .text _ => []
  | .elem t a cs => collectPairsList (Node.elem t a cs :: anc) cs

def collectPairsList (anc : List Node) : NodeList → List (Node × Option Node)
  | .nil => []
  | .cons c cs =>
    (if isMarkerTd c then [(c, anc.find? isTrElem)] else []) ++
      collectPairsNode anc c ++ collectPairsList anc cs

end

/-- The markers of the document, paired with their `tr` parents. -/
def segmentPairs (doc : Node) : List (Node × Option Node) :=
  collectPairsNode [] doc

/-- `str(parent_tr)` re-parsed: a fresh document holding the `tr`; when the
marker has no `tr` ancestor, `str(None)` parses to the text `"None"`. -/
def reparse : Option Node → Node
  | some tr => .elem "[document]" [] (nodes [tr])
  | none => .elem "[document]" [] (nodes [.text "None"])

/-- `PartnerScraper.parse_all_partners`: one record per marker cell, each row
extracted from its re-parsed enclosing `tr`. -/
def parse_all_partners (doc : Node) : List PartnerRecord :=
  (segmentPairs doc).map (fun pr => parse_partner_row (some (reparse pr.2)))

/-! ## Concrete fragments used as test inputs -/

/-- A `li.list-group-item` holding one text fragment. -/
def groupLi (s : String) : Node :=
  .elem "li" [("class", "list-group-item")] (nodes [.text s])

/-- A specialization container with the given list items. -/
def egSpecCont (items : List String) : Node :=
  .elem "span" [("class", "pl-results-td-account-Product_Specialization__c")]
    (nodes (items.map groupLi))

/-- A row fragment holding only a specialization container. -/
def egFragSpec (items : List String) : Node :=
  .elem "tr" [] (nodes [egSpecCont items])

/-- A partner-type container (id partially matching `resultsPartnerType`). -/
def egBatchCont (items : List String) : Node :=
  .elem "span" [("id", "j0:resultsPartnerType:7")] (nodes (items.map groupLi))

/-- A row fragment holding only a partner-type container. -/
def egFragBatch (items : List String) : Node :=
  .elem "tr" [] (nodes [egBatchCont items])

/-- A website cell whose link carries the given target. -/
def egWebsiteSpan (href : String) : Node :=
  .elem "span" [("class", "pl-results-td-contact-PLP_Website__c")]
    (nodes [.elem "a" [("href", href)] (nodes [.text "site"])])

/-- A row fragment holding only a website cell. -/
def egFragWebsite (href : String) : Node :=
  .elem "tr" [] (nodes [egWebsiteSpan href])

/-- A mailing-address cell: the value sub-element is present. -/
def egAddressSpan : Node :=
  .elem "span" [("class", "pl-results-td-address-plocez__Mailing_Address__c")]
    (nodes [.text "HQ: ",
            .elem "span" [("class", "pl-results-value")] (nodes [.text "1 Main St"])])

/-- A row fragment holding only a mailing-address cell. -/
def egFragAddress : Node :=
  .elem "tr" [] (nodes [egAddressSpan])

/-- A mailing-address cell without the value sub-element. -/
def egBareAddressSpan : Node :=
  .elem "span" [("class", "pl-results-td-address-plocez__Mailing_Address__c")]
    (nodes [.text "HQ: 1 Main St"])

/-- A row fragment whose mailing-address cell lacks the value sub-element. -/
def egFragBareAddress : Node :=
  .elem "tr" [] (nodes [egBareAddressSpan])

/-- A marker cell (`td.pl-results-td-row-no`) displaying the given number. -/
def egMarkerTd (k : String) : Node :=
  .elem "td" [("class", "pl-results-td-row-no")]
    (nodes [.elem "span" [("class", "pl-results-row-no")] (nodes [.text k])])

/-- One partner row of the five-row document. -/
def egRow (k : String) : Node :=
  .elem "tr" [] (nodes [egMarkerTd k])

/-- A document with five marker cells, each inside its own `tr`. -/
def egFiveDoc : Node :=
  .elem "[document]" []
    (nodes [.elem "table" []
      (nodes [egRow "1", egRow "2", egRow "3", egRow "4", egRow "5"])])

/-- A document with no markers at all. -/
def egEmptyDoc : Node :=
  .elem "[document]" [] .nil

/-! ## Spec-side definitions used to state the claims -/

/-- The ordered field (column) names of the output record. -/
def fieldNames : List String :=
  ["Number", "Siemens Batch", "Name", "Partner Batch", "Locations", "Office address",
   "Contact Name", "Contact Email", "Contact Telephone", "Contact website",
   "Proced Specialization"]

/-- No two adjacent whitespace characters. -/
def noWsRun : List Char → Bool
  | [] => true
  | [_] => true
  | c :: d :: cs => !(pyIsSpace c && pyIsSpace d) && noWsRun (d :: cs)

/-- Whitespace-free at both ends. -/
def noEdgeWs (l : List Char) : Bool :=
  !((l.head?.map pyIsSpace).getD false) && !((l.getLast?.map pyIsSpace).getD false)

/-- The email shape demanded by the spec: `local-part @ domain-labels . tld`
with a non-empty local part over the local class, a non-empty domain over the
domain class, and a final top-level label of at least two letters. -/
def EmailMatches (e : String) : Prop :=
  ∃ l d t : List Char,
    e.data = l ++ '@' :: (d ++ '.' :: t) ∧
    l ≠ [] ∧ (∀ c ∈ l, isLocalChar c = true) ∧
    d ≠ [] ∧ (∀ c ∈ d, isDomainChar c = true) ∧
    2 ≤ t.length ∧ (∀ c ∈ t, c.isAlpha = true)

/-- Modelled from the claim's words for the specialization rule: all
list-item texts normalized, deduplicated, sorted, comma-joined — with no
dropping of entries that normalize to `""`. -/
def specializationClaimed (cont : Node) : String :=
  String.intercalate ", " (((specItems cont).dedup).insertionSort StrLe)

/-- The claim's description of the address-component split, stated over the
parts list: the third part is split at its single comma when it contains
exactly one comma, and the fourth part becomes the country only when no
country was set. -/
def splitAddressSpec (parts : List String) : String × String × String × String :=
  let street := parts.getD 0 ""
  let city := parts.getD 1 ""
  let rc :=
    match parts.get? 2 with
    | none => ("", "")
    | some p2 =>
      if p2.data.count ',' = 1 then
        (pyStrip ⟨p2.data.takeWhile (· != ',')⟩,
         pyStrip ⟨(p2.data.dropWhile (· != ',')).tail⟩)
      else (p2, "")
  let country := if parts.get? 3 ≠ none ∧ rc.2 = "" then parts.getD 3 "" else rc.2
  (clean_text street, clean_text city, clean_text rc.1, clean_text country)

end Scraper

namespace Scraper

/-! ## Order facts about the lexicographic comparison -/

theorem lexLeL_total : ∀ as bs : List Char, lexLeL as bs = true ∨ lexLeL bs as = true := by
  intro as
  induction as with
  | nil => intro bs; left; cases bs <;> rfl
  | cons a as ih =>
    intro bs
    cases bs with
    | nil => right; rfl
    | cons b bs =>
      by_cases hab : a = b
      · subst hab
        rcases ih bs with h | h
        · left; simpa [lexLeL] using h
        · right; simpa [lexLeL] using h
      · rcases lt_or_gt_of_ne hab with h | h
        · left; simp [lexLeL, hab, h]
        · right; simp [lexLeL, Ne.symm hab, h]

theorem lexLeL_trans : ∀ as bs cs : List Char,
    lexLeL as bs = true → lexLeL bs cs = true → lexLeL as cs = true := by
  intro as
  induction as with
  | nil => intro bs cs _ _; cases cs <;> rfl
  | cons a as ih =>
    intro bs cs hab hbc
    cases bs with
    | nil => simp [lexLeL] at hab
    | cons b bs =>
      cases cs with
      | nil => simp [lexLeL] at hbc
      | cons c cs =>
        by_cases h1 : a = b
        · subst h1
          by_cases h2 : a = c
          · subst h2
            simp only [lexLeL, if_pos rfl] at hab hbc ⊢
            exact ih bs cs hab hbc
          · simp [lexLeL, h2] at hbc ⊢
            exact hbc
        · by_cases h2 : b = c
          · subst h2
            simp [lexLeL, h1] at hab ⊢
            exact hab
          · simp [lexLeL, h1] at hab
            simp [lexLeL, h2] at hbc
            have h3 : a < c := lt_trans hab hbc
            simp [lexLeL, ne_of_lt h3, h3]

instance : IsTotal String StrLe :=
  ⟨fun a b => lexLeL_total a.data b.data⟩

instance : IsTrans String StrLe :=
  ⟨fun a b c => lexLeL_trans a.data b.data c.data⟩

example : clean_text "  a\n\nb  " = "a b" := by decide
example :
    findInNode (isTag "b")
      (.elem "a" [] (nodes [.text "x", .elem "b" [("id", "1")] .nil])) =
    some (.elem "b" [("id", "1")] .nil) := rfl
example : searchSortScore "zz sortScore : 42.5, x".data = some "42.5" := by decide
example : searchLocations "Locations: 7".data = some "7" := by decide
example : getTextStrip (.elem "a" [] (nodes [.text " x ", .text "", .text "y"])) = "xy" := rfl
example : validate_email "Jane.Doe@Example.COM" = "jane.doe@example.com" := by decide
example : validate_email "not-an-email" = "" := by decide
example : clean_text "Line1\n\n  Line2\t!@#$%" = "Line1 Line2 !@#" := by decide
example :
    (parse_partner_row (some (egFragSpec ["MRI", "CT", "MRI"]))).procedSpecialization =
      "CT, MRI" := by decide
example :
    (parse_partner_row (some (egFragSpec ["b", "$"]))).procedSpecialization = "b" := by decide
example : (parse_partner_row (some (egFragBatch ["b", "$"]))).partnerBatch = "b, " := by decide
example :
    (parse_partner_row (some (egFragWebsite "ftp://x.com"))).contactWebsite = "" := by decide
example :
    (parse_partner_row (some (egFragWebsite "https://x.com"))).contactWebsite =
      "https://x.com" := by decide
example : (parse_partner_row (some egFragAddress)).officeAddress = "HQ 1 Main St" := by decide
example : (parse_partner_row (some egFragBareAddress)).officeAddress = "" := by decide
example : (parse_all_partners egFiveDoc).length = 5 := by decide
example :
    (parse_all_partners egFiveDoc).map PartnerRecord.number = ["1", "2", "3", "4", "5"] := by
  decide
example : parse_all_partners egEmptyDoc = [] := by decide
example :
    splitAddressParts ["123 Main St", "Springfield", "IL, USA"] =
      ("123 Main St", "Springfield", "IL", "USA") := by decide
example :
    splitAddressParts ["123 Main St", "Springfield", "Illinois"] =
      ("123 Main St", "Springfield", "Illinois", "") := by decide

/-! ## Claim theorems -/

/-- C1: the Row Extractor is a total function — every input (including the
fragment-wide parse-failure / unexpected-exception case, modelled by `none`)
yields a `PartnerRecord` with the eleven fields, and on the failure path all
eleven fields are `""`. -/
theorem claimC1_rowExtractorTotal :
    (∀ f : Option Node, (recordPairs (parse_partner_row f)).length = 11) ∧
    parse_partner_row none = emptyRecord ∧
    (recordPairs emptyRecord).map Prod.snd = List.replicate 11 "" :=
  ⟨fun _ => rfl, rfl, rfl⟩

/-- C2: on every input fragment — success path or failure path — the record
returned by the Row Extractor has exactly the eleven named fields, in the
fixed export order, and every field carries a string value. -/
theorem claimC2_recordShape :
    (∀ f : Option Node, (recordPairs (parse_partner_row f)).map Prod.fst = fieldNames) ∧
    fieldNames.length = 11 ∧
    (∀ f : Option Node, ∃ vals : List String,
        recordPairs (parse_partner_row f) = fieldNames.zip vals) :=
  ⟨fun _ => rfl, rfl,
   fun f => ⟨(recordPairs (parse_partner_row f)).map Prod.snd, rfl⟩⟩

/-! ### Lemmas about whitespace collapsing and stripping -/

theorem noWsRun_cons {c : Char} (hc : pyIsSpace c = false) (R : List Char) :
    noWsRun (c :: R) = noWsRun R := by
  cases R <;> simp [noWsRun, hc]

theorem collapseWs_cons_of_not_space {d : Char} (hd : pyIsSpace d = false)
    (cs : List Char) : ∃ rest, collapseWs (d :: cs) = d :: rest := by
  cases cs with
  | nil => exact ⟨[], by simp [collapseWs, hd]⟩
  | cons e cs => exact ⟨collapseWs (e :: cs), by simp [collapseWs, hd]⟩

theorem collapseWs_all_singleSpace (cs : List Char) :
    (collapseWs cs).all (fun c => !pyIsSpace c || c == ' ') = true := by
  induction cs using collapseWs.induct with
  | case1 => rfl
  | case2 c => by_cases h : pyIsSpace c <;> simp [collapseWs, h]
  | case3 c d cs hc hd ih => simpa [collapseWs, hc, hd] using ih
  | case4 c d cs hc hd ih => simpa [collapseWs, hc, hd] using ih
  | case5 c d cs hc ih => simpa [collapseWs, hc] using ih

theorem collapseWs_noWsRun (cs : List Char) : noWsRun (collapseWs cs) = true := by
  induction cs using collapseWs.induct with
  | case1 => rfl
  | case2 c => by_cases h : pyIsSpace c <;> simp [collapseWs, noWsRun, h]
  | case3 c d cs hc hd ih => simpa [collapseWs, hc, hd] using ih
  | case4 c d cs hc hd ih =>
    have hd' : pyIsSpace d = false := by simpa using hd
    obtain ⟨rest, hrest⟩ := collapseWs_cons_of_not_space hd' cs
    rw [hrest] at ih
    simp only [collapseWs, hc, hd', if_true, if_false, Bool.false_eq_true, hrest]
    simpa [noWsRun, hd'] using ih
  | case5 c d cs hc ih =>
    have hc' : pyIsSpace c = false := by simpa using hc
    simpa [collapseWs, hc', noWsRun_cons hc'] using ih

theorem collapseWs_filter_content (cs : List Char) :
    (collapseWs cs).filter (fun c => !pyIsSpace c) =
      cs.filter (fun c => !pyIsSpace c) := by
  induction cs using collapseWs.induct with
  | case1 => rfl
  | case2 c =>
    by_cases h : pyIsSpace c
    · simp [collapseWs, h]
      simp [pyIsSpace]
    · simp [collapseWs, h]
  | case3 c d cs hc hd ih => simpa [collapseWs, hc, hd] using ih
  | case4 c d cs hc hd ih => simpa [collapseWs, hc, hd] using ih
  | case5 c d cs hc ih => simpa [collapseWs, hc] using ih

theorem head_dropWhile_false {α : Type} (p : α → Bool) (l : List α) :
    (((l.dropWhile p).head?).map p).getD false = false := by
  induction l with
  | nil => rfl
  | cons a l ih => by_cases h : p a <;> simp [List.dropWhile_cons, h, ih]

theorem pyStripL_noEdgeWs (cs : List Char) : noEdgeWs (pyStripL cs) = true := by
  have htail :
      (((pyStripL cs).getLast?).map pyIsSpace).getD false = false := by
    unfold pyStripL
    rw [List.getLast?_reverse]
    exact head_dropWhile_false _ _
  have hhead : (((pyStripL cs).head?).map pyIsSpace).getD false = false := by
    rcases hne : pyStripL cs with _ | ⟨b, B⟩
    · simp
    · have hpre : pyStripL cs <+: cs.dropWhile pyIsSpace := by
        have h1 : ((cs.dropWhile pyIsSpace).reverse.dropWhile pyIsSpace) <:+
            (cs.dropWhile pyIsSpace).reverse := List.dropWhile_suffix _
        have h2 := List.reverse_prefix.mpr h1
        rwa [List.reverse_reverse] at h2
      obtain ⟨tl, htl⟩ := hpre
      have hbhead : (cs.dropWhile pyIsSpace).head? = some b := by
        rw [← htl, hne]; rfl
      have h0 := head_dropWhile_false pyIsSpace cs
      rw [hbhead] at h0
      simpa [hne] using h0
  simp [noEdgeWs, htail, hhead]

/-- C3 counterexample: `clean` keeps `#` (it is in the allowed character set),
so the claimed output `"Line1 Line2 !@"` is wrong: the code yields
`"Line1 Line2 !@#"`. -/
theorem claimC3_cleanCounterexample :
    clean_text "Line1\n\n  Line2\t!@#$%" = "Line1 Line2 !@#" ∧
    ¬ clean_text "Line1\n\n  Line2\t!@#$%" = "Line1 Line2 !@" := by
  decide

/-! ### Lemmas about the email shape -/

theorem takeWhile_append_all {α : Type} {p : α → Bool} {l : List α}
    (h : ∀ a ∈ l, p a = true) {x : α} (hx : p x = false) (r : List α) :
    (l ++ x :: r).takeWhile p = l := by
  induction l with
  | nil => simp [List.takeWhile_cons, hx]
  | cons a as ih =>
    have ha : p a = true := h a (by simp)
    simp [List.takeWhile_cons, ha, ih (fun b hb => h b (by simp [hb]))]

theorem dropWhile_append_all {α : Type} {p : α → Bool} {l : List α}
    (h : ∀ a ∈ l, p a = true) {x : α} (hx : p x = false) (r : List α) :
    (l ++ x :: r).dropWhile p = x :: r := by
  induction l with
  | nil => simp [List.dropWhile_cons, hx]
  | cons a as ih =>
    have ha : p a = true := h a (by simp)
    simp [List.dropWhile_cons, ha, ih (fun b hb => h b (by simp [hb]))]

theorem isLocalChar_ne_at {c : Char} (h : isLocalChar c = true) : (c != '@') = true := by
  rcases eq_or_ne c '@' with rfl | hne
  · exact absurd h (by decide)
  · simp [hne]

theorem isAlpha_ne_dot {c : Char} (h : c.isAlpha = true) : (c != '.') = true := by
  rcases eq_or_ne c '.' with rfl | hne
  · exact absurd h (by decide)
  · simp [hne]

theorem emailShape_iff (cs : List Char) :
    emailShape cs = true ↔
      ∃ l d t : List Char,
        cs = l ++ '@' :: (d ++ '.' :: t) ∧
        l ≠ [] ∧ (∀ c ∈ l, isLocalChar c = true) ∧
        d ≠ [] ∧ (∀ c ∈ d, isDomainChar c = true) ∧
        2 ≤ t.length ∧ (∀ c ∈ t, c.isAlpha = true) := by
  constructor
  · intro h
    unfold emailShape at h
    split at h
    case h_2 => exact absurd h (by simp)
    case h_1 _ r hdrop =>
      have hc0 : '@' :: r = cs.dropWhile (· != '@') := hdrop.symm
      split at h
      case h_2 => exact absurd h (by simp)
      case h_1 _ dRev hdrop2 =>
        simp only [Bool.and_eq_true, Bool.not_eq_true', List.isEmpty_eq_false,
          List.all_eq_true, decide_eq_true_eq] at h
        obtain ⟨⟨⟨⟨⟨hl, hlc⟩, hd⟩, hdc⟩, ht2⟩, hta⟩ := h
        refine ⟨cs.takeWhile (· != '@'), dRev.reverse,
          (r.reverse.takeWhile (· != '.')).reverse, ?_, hl, hlc, ?_, ?_, ?_, ?_⟩
        · have h1 : cs = cs.takeWhile (· != '@') ++ '@' :: r := by
            conv_lhs => rw [← List.takeWhile_append_dropWhile (p := (· != '@')) (l := cs)]
            rw [← hc0]
          have h2 : r.reverse = r.reverse.takeWhile (· != '.') ++ '.' :: dRev := by
            conv_lhs =>
              rw [← List.takeWhile_append_dropWhile (p := (· != '.')) (l := r.reverse)]
            rw [hdrop2]
          have h3 : r = dRev.reverse ++ '.' :: (r.reverse.takeWhile (· != '.')).reverse := by
            have h4 := congrArg List.reverse h2
            simpa [List.reverse_append] using h4
          rw [h3] at h1
          exact h1
        · simpa using hd
        · intro c hc
          exact hdc c (by simpa using hc)
        · simpa using ht2
        · intro c hc
          exact hta c (by simpa using hc)
  · rintro ⟨l, d, t, rfl, hl, hlc, hd, hdc, ht2, hta⟩
    have htake : (l ++ '@' :: (d ++ '.' :: t)).takeWhile (· != '@') = l :=
      takeWhile_append_all (fun a ha => isLocalChar_ne_at (hlc a ha)) (by decide) _
    have hdrop : (l ++ '@' :: (d ++ '.' :: t)).dropWhile (· != '@') =
        '@' :: (d ++ '.' :: t) :=
      dropWhile_append_all (fun a ha => isLocalChar_ne_at (hlc a ha)) (by decide) _
    have hrev : (d ++ '.' :: t).reverse = t.reverse ++ '.' :: d.reverse := by
      simp [List.reverse_append]
    have htake2 : (t.reverse ++ '.' :: d.reverse).takeWhile (· != '.') = t.reverse :=
      takeWhile_append_all
        (fun a ha => isAlpha_ne_dot (hta a (by simpa using ha))) (by decide) _
    have hdrop2 : (t.reverse ++ '.' :: d.reverse).dropWhile (· != '.') =
        '.' :: d.reverse :=
      dropWhile_append_all
        (fun a ha => isAlpha_ne_dot (hta a (by simpa using ha))) (by decide) _
    unfold emailShape
    split
    case h_2 hno =>
      exact absurd hdrop (hno (d ++ '.' :: t))
    case h_1 _ r heq =>
      rw [hdrop] at heq
      injection heq with _ hr
      subst hr
      split
      case h_2 hno2 =>
        have heqq : (d ++ '.' :: t).reverse.dropWhile (· != '.') = '.' :: d.reverse := by
          rw [hrev]; exact hdrop2
        exact absurd heqq (hno2 d.reverse)
      case h_1 _ dRev heq2 =>
        rw [hrev, hdrop2] at heq2
        injection heq2 with _ hdR
        subst hdR
        rw [htake, hrev, htake2]
        simp only [Bool.and_eq_true, Bool.not_eq_true', List.isEmpty_eq_false,
          List.all_eq_true, decide_eq_true_eq]
        refine ⟨⟨⟨⟨⟨hl, hlc⟩, by simpa using hd⟩, ?_⟩, by simpa using ht2⟩, ?_⟩
        · intro c hc
          exact hdc c (by simpa using hc)
        · intro c hc
          exact hta c (by simpa using hc)

/-- C4: email validation lower-cases and strips its input, accepts it exactly
when it has the shape `local-part@domain-labels.tld` over the source's
character classes with a top-level label of at least two letters, and
returns `""` otherwise; `"Jane.Doe@Example.COM"` maps to
`"jane.doe@example.com"` and `"not-an-email"` to `""`. -/
theorem claimC4_validateEmail :
    (∀ s : String,
        (validate_email s = pyStrip (pyLower s) ∧ EmailMatches (pyStrip (pyLower s))) ∨
        (validate_email s = "" ∧ ¬ EmailMatches (pyStrip (pyLower s)))) ∧
    validate_email "Jane.Doe@Example.COM" = "jane.doe@example.com" ∧
    validate_email "not-an-email" = "" := by
  refine ⟨?_, by decide, by decide⟩
  intro s
  by_cases hs : s = ""
  · subst hs
    right
    refine ⟨rfl, ?_⟩
    rintro ⟨l, d, t, h, -, -, -, -, -, -⟩
    have h0 : ([] : List Char) = l ++ '@' :: (d ++ '.' :: t) := h
    simp at h0
  · by_cases he : emailShape (pyStrip (pyLower s)).data = true
    · exact Or.inl ⟨by simp [validate_email, hs, he], (emailShape_iff _).mp he⟩
    · refine Or.inr ⟨by simp [validate_email, hs, he], fun hm => ?_⟩
      exact he ((emailShape_iff _).mpr hm)

/-- C3 amended: `clean` trims the ends, collapses every whitespace run
(newlines included) to a single space, then strips every character that is
not alphanumeric, underscore, whitespace, or one of the allowed symbols
(which include `#`); on the spec's example it yields `"Line1 Line2 !@#"`,
not `"Line1 Line2 !@"`. -/
theorem claimC3_cleanAmended :
    (∀ s : String, (clean_text s).data =
        (collapseWs (pyStripL s.data)).filter isAllowedChar) ∧
    (∀ cs : List Char, noEdgeWs (pyStripL cs) = true) ∧
    (∀ cs : List Char,
        (collapseWs cs).all (fun c => !pyIsSpace c || c == ' ') = true ∧
        noWsRun (collapseWs cs) = true ∧
        (collapseWs cs).filter (fun c => !pyIsSpace c) =
          cs.filter (fun c => !pyIsSpace c)) ∧
    (∀ s : String, (clean_text s).data.all isAllowedChar = true) ∧
    clean_text "Line1\n\n  Line2\t!@#$%" = "Line1 Line2 !@#" := by
  have hpipe : ∀ s : String,
      (clean_text s).data = (collapseWs (pyStripL s.data)).filter isAllowedChar := by
    intro s
    by_cases h : s = ""
    · subst h; rfl
    · simp [clean_text, h]
  refine ⟨hpipe, pyStripL_noEdgeWs,
    fun cs => ⟨collapseWs_all_singleSpace cs, collapseWs_noWsRun cs,
      collapseWs_filter_content cs⟩, ?_, by decide⟩
  intro s
  rw [hpipe s]
  simp only [List.all_eq_true]
  intro c hc
  exact (List.mem_filter.mp hc).2

/-- C5: for every fragment whose website element has a link child, the
ContactWebsite field equals the link's target attribute exactly when it
starts with `http://` or `https://`, and `""` otherwise; href
`"ftp://x.com"` yields `""` and `"https://x.com"` is kept unchanged. -/
theorem claimC5_website :
    (∀ frag sp link : Node,
        findInNode (spanClass "pl-results-td-contact-PLP_Website__c") frag = some sp →
        findInNode aWithHref sp = some link →
        (parse_partner_row (some frag)).contactWebsite =
          (if pyStartsWith ((attr? link "href").getD "") "http://" ||
              pyStartsWith ((attr? link "href").getD "") "https://"
           then (attr? link "href").getD "" else "")) ∧
    (parse_partner_row (some (egFragWebsite "ftp://x.com"))).contactWebsite = "" ∧
    (parse_partner_row (some (egFragWebsite "https://x.com"))).contactWebsite =
      "https://x.com" := by
  refine ⟨?_, by decide, by decide⟩
  intro frag sp link h1 h2
  simp only [parse_partner_row, contactWebsiteField, h1, h2]

/-- Witness for C5: the general rule applied to the concrete `ftp://` row. -/
theorem claimC5_website_witness :
    (parse_partner_row (some (egFragWebsite "ftp://x.com"))).contactWebsite =
      (if pyStartsWith
            ((attr? (Node.elem "a" [("href", "ftp://x.com")] (nodes [Node.text "site"]))
              "href").getD "") "http://" ||
          pyStartsWith
            ((attr? (Node.elem "a" [("href", "ftp://x.com")] (nodes [Node.text "site"]))
              "href").getD "") "https://"
       then (attr? (Node.elem "a" [("href", "ftp://x.com")] (nodes [Node.text "site"]))
              "href").getD ""
       else "") :=
  claimC5_website.1 (egFragWebsite "ftp://x.com") (egWebsiteSpan "ftp://x.com")
    (Node.elem "a" [("href", "ftp://x.com")] (nodes [Node.text "site"])) rfl rfl

/-- C9: when the mailing-address element is present and the expected value
sub-element exists below it, OfficeAddress is the element's full text content
normalized by `clean`; absence of the element, or of the value sub-element in
the chain, yields `""` for this field. -/
theorem claimC9_officeAddress :
    (∀ frag sp det : Node,
        findInNode (spanClass "pl-results-td-address-plocez__Mailing_Address__c") frag =
          some sp →
        findInNode (spanClass "pl-results-value") sp = some det →
        (parse_partner_row (some frag)).officeAddress = clean_text (getText sp)) ∧
    (∀ frag : Node,
        findInNode (spanClass "pl-results-td-address-plocez__Mailing_Address__c") frag =
          none →
        (parse_partner_row (some frag)).officeAddress = "") ∧
    (∀ frag sp : Node,
        findInNode (spanClass "pl-results-td-address-plocez__Mailing_Address__c") frag =
          some sp →
        findInNode (spanClass "pl-results-value") sp = none →
        (parse_partner_row (some frag)).officeAddress = "") := by
  refine ⟨?_, ?_, ?_⟩
  · intro frag sp det h1 h2
    simp only [parse_partner_row, officeAddressField, h1, h2]
  · intro frag h1
    simp only [parse_partner_row, officeAddressField, h1]
  · intro frag sp h1 h2
    simp only [parse_partner_row, officeAddressField, h1, h2]

/-- C6 counterexample: with list items `["b", "$"]` the second item
normalizes to `""`; the claimed formula (normalize all items, dedup, sort,
join) would give `", b"`, while the code drops the empty entry and yields
`"b"`. -/
theorem claimC6_specCounterexample :
    specializationClaimed (egSpecCont ["b", "$"]) = ", b" ∧
    (parse_partner_row (some (egFragSpec ["b", "$"]))).procedSpecialization = "b" ∧
    ¬ (parse_partner_row (some (egFragSpec ["b", "$"]))).procedSpecialization =
        specializationClaimed (egSpecCont ["b", "$"]) := by
  decide

/-- C6 amended: ProcedSpecialization is computed by normalizing the text of
all list-item children, dropping the items whose normalized text is empty,
deduplicating by exact string equality, sorting lexicographically, and
comma-joining; duplicates of identical cleaned text collapse to one entry
regardless of input order. -/
theorem claimC6_specAmended :
    (∀ frag cont : Node,
        findInNode (spanClass "pl-results-td-account-Product_Specialization__c") frag =
          some cont →
        (parse_partner_row (some frag)).procedSpecialization =
          String.intercalate ", " (specSortedList cont) ∧
        (specSortedList cont).Sorted StrLe ∧
        (specSortedList cont).Nodup ∧
        (specSortedList cont).toFinset =
          ((specItems cont).filter (· != "")).toFinset) ∧
    (parse_partner_row (some (egFragSpec ["MRI", "CT", "MRI"]))).procedSpecialization =
      "CT, MRI" := by
  refine ⟨?_, by decide⟩
  intro frag cont h1
  refine ⟨?_, ?_, ?_, ?_⟩
  · simp only [parse_partner_row, procedSpecializationField, h1]
  · exact List.sorted_insertionSort StrLe _
  · exact ((List.perm_insertionSort StrLe _).nodup_iff).mpr (List.nodup_dedup _)
  · apply Finset.ext
    intro x
    simp [specSortedList, List.mem_insertionSort, List.mem_dedup]

/-- Witness for C6: the amended rule applied to the duplicate-bearing row. -/
theorem claimC6_specAmended_witness :
    (parse_partner_row (some (egFragSpec ["MRI", "CT", "MRI"]))).procedSpecialization =
      String.intercalate ", " (specSortedList (egSpecCont ["MRI", "CT", "MRI"])) ∧
    (specSortedList (egSpecCont ["MRI", "CT", "MRI"])).Sorted StrLe ∧
    (specSortedList (egSpecCont ["MRI", "CT", "MRI"])).Nodup ∧
    (specSortedList (egSpecCont ["MRI", "CT", "MRI"])).toFinset =
      ((specItems (egSpecCont ["MRI", "CT", "MRI"])).filter (· != "")).toFinset :=
  claimC6_specAmended.1 (egFragSpec ["MRI", "CT", "MRI"])
    (egSpecCont ["MRI", "CT", "MRI"]) rfl

/-- C10: ProcedSpecialization never contains an empty entry — items whose
normalized text is empty are dropped before dedup/sort/join, so a container
holding only such items yields `""` — whereas PartnerBatch comma-joins all
list items of its container, including those that normalize to `""`. -/
theorem claimC10_specNonempty :
    (∀ frag cont : Node,
        findInNode (spanClass "pl-results-td-account-Product_Specialization__c") frag =
          some cont →
        "" ∉ specSortedList cont ∧
        (parse_partner_row (some frag)).procedSpecialization =
          String.intercalate ", " (specSortedList cont)) ∧
    (parse_partner_row (some (egFragSpec ["$", " "]))).procedSpecialization = "" ∧
    (∀ frag sp : Node,
        findInNode spanPartnerType frag = some sp →
        (parse_partner_row (some frag)).partnerBatch =
          String.intercalate ", "
            ((findAllInNode liGroupItem sp).map (fun li => clean_text (getText li)))) ∧
    (parse_partner_row (some (egFragBatch ["b", "$"]))).partnerBatch = "b, " := by
  refine ⟨?_, by decide, ?_, by decide⟩
  · intro frag cont h1
    constructor
    · intro hmem
      simp [specSortedList, List.mem_insertionSort, List.mem_dedup] at hmem
    · simp only [parse_partner_row, procedSpecializationField, h1]
  · intro frag sp h1
    simp only [parse_partner_row, partnerBatchField, h1]

/-- Witness for C10: the general rules applied to the concrete rows. -/
theorem claimC10_specNonempty_witness :
    "" ∉ specSortedList (egSpecCont ["b", "$"]) ∧
    (parse_partner_row (some (egFragSpec ["b", "$"]))).procedSpecialization =
      String.intercalate ", " (specSortedList (egSpecCont ["b", "$"])) :=
  claimC10_specNonempty.1 (egFragSpec ["b", "$"]) (egSpecCont ["b", "$"]) rfl

/-! ### Lemmas about the comma split -/

theorem splitComma_zero : ∀ cs : List Char, cs.count ',' = 0 → splitComma cs = [cs] := by
  intro cs
  induction cs with
  | nil => intro _; rfl
  | cons c cs ih =>
    intro h
    have hc : ¬ c = ',' := by
      intro hc
      subst hc
      simp [List.count_cons] at h
    have h0 : cs.count ',' = 0 := by simpa [List.count_cons, hc] using h
    simp [splitComma, hc, ih h0]

theorem splitComma_length : ∀ cs : List Char, (splitComma cs).length = cs.count ',' + 1 := by
  intro cs
  induction cs with
  | nil => rfl
  | cons c cs ih =>
    by_cases hc : c = ','
    · subst hc
      simp [splitComma, List.count_cons, ih]
    · rcases hsc : splitComma cs with _ | ⟨w, ws⟩
      · rw [hsc] at ih
        simp at ih
      · rw [hsc] at ih
        simp only [List.length_cons] at ih
        simp [splitComma, hc, hsc, List.count_cons]
        omega

theorem splitComma_one : ∀ cs : List Char, cs.count ',' = 1 →
    splitComma cs = [cs.takeWhile (· != ','), (cs.dropWhile (· != ',')).tail] := by
  intro cs
  induction cs with
  | nil => intro h; simp at h
  | cons c cs ih =>
    intro h
    by_cases hc : c = ','
    · subst hc
      have h0 : cs.count ',' = 0 := by simpa [List.count_cons] using h
      simp [splitComma, splitComma_zero cs h0, List.takeWhile_cons, List.dropWhile_cons]
    · have h1 : cs.count ',' = 1 := by simpa [List.count_cons, hc] using h
      simp [splitComma, hc, ih h1, List.takeWhile_cons, List.dropWhile_cons]

/-- C7: the address split takes street and city from the first two parts,
splits the third part into region and country exactly when it contains one
comma (otherwise it is all region), lets a fourth part become the country
only when none was set, passes every component through `clean`, and the
failure path yields four empty components; the two spec examples hold. -/
theorem claimC7_addressSplit :
    (∀ parts : List String, splitAddressParts parts = splitAddressSpec parts) ∧
    splitAddressParts ["123 Main St", "Springfield", "IL, USA"] =
      ("123 Main St", "Springfield", "IL", "USA") ∧
    splitAddressParts ["123 Main St", "Springfield", "Illinois"] =
      ("123 Main St", "Springfield", "Illinois", "") ∧
    extract_address_components none = ("", "", "", "") := by
  refine ⟨?_, by decide, by decide, rfl⟩
  intro parts
  have hiff : (parts.get? 3 ≠ none) ↔ 4 ≤ parts.length := by
    rw [Ne, List.get?_eq_none, not_le]
    omega
  have hcountry : ∀ c2 : String,
      (if 4 ≤ parts.length && c2 == "" then parts.getD 3 "" else c2) =
      (if parts.get? 3 ≠ none ∧ c2 = "" then parts.getD 3 "" else c2) := by
    intro c2
    by_cases h4 : 4 ≤ parts.length <;> by_cases hc2 : c2 = ""
    · rw [if_pos (by simp [h4, hc2]), if_pos ⟨hiff.mpr h4, hc2⟩]
    · rw [if_neg (by simp [hc2]), if_neg (fun hcon => hc2 hcon.2)]
    · rw [if_neg (by simp [h4]), if_neg (fun hcon => h4 (hiff.mp hcon.1))]
    · rw [if_neg (by simp [h4]), if_neg (fun hcon => h4 (hiff.mp hcon.1))]
  have hsc :
      (match parts.get? 2 with
        | none => ("", "")
        | some p2 =>
          match splitComma p2.data with
          | [a, b] => (pyStrip ⟨a⟩, pyStrip ⟨b⟩)
          | _ => (p2, "")) =
      (match parts.get? 2 with
        | none => (("" : String), ("" : String))
        | some p2 =>
          if p2.data.count ',' = 1 then
            (pyStrip ⟨p2.data.takeWhile (· != ',')⟩,
             pyStrip ⟨(p2.data.dropWhile (· != ',')).tail⟩)
          else (p2, "")) := by
    cases hp : parts.get? 2 with
    | none => rfl
    | some p2 =>
      by_cases hc : p2.data.count ',' = 1
      · simp [splitComma_one p2.data hc, hc]
      · rcases h2 : splitComma p2.data with _ | ⟨a, _ | ⟨b, _ | ⟨c, rest⟩⟩⟩
        · simp [hc, h2]
        · simp [hc, h2]
        · exfalso
          have hlen := splitComma_length p2.data
          rw [h2] at hlen
          simp at hlen
          exact hc hlen
        · simp [hc, h2]
  simp only [splitAddressParts, splitAddressSpec]
  rw [hsc, hcountry]

/-! ### Lemmas about segmentation -/

mutual

theorem collectPairsNode_fst : ∀ (anc : List Node) (n : Node),
    (collectPairsNode anc n).map Prod.fst = findAllInNode isMarkerTd n
  | _, .text _ => rfl
  | anc, .elem t a cs => by
    simp only [collectPairsNode, findAllInNode]
    exact collectPairsList_fst (Node.elem t a cs :: anc) cs

theorem collectPairsList_fst : ∀ (anc : List Node) (l : NodeList),
    (collectPairsList anc l).map Prod.fst = findAllInList isMarkerTd l
  | _, .nil => rfl
  | anc, .cons c cs => by
    simp only [collectPairsList, findAllInList, List.map_append]
    rw [collectPairsNode_fst anc c, collectPairsList_fst anc cs]
    by_cases h : isMarkerTd c <;> simp [h]

end

/-- C8: segmentation yields exactly one row fragment per row-index marker
cell, in top-to-bottom document order (a five-marker document yields exactly
five records, in order), and a document that is empty or has no markers
yields an empty sequence rather than an error. -/
theorem claimC8_segmenter :
    (∀ doc : Node, (segmentPairs doc).map Prod.fst = findAllInNode isMarkerTd doc) ∧
    (∀ doc : Node,
        (parse_all_partners doc).length = (findAllInNode isMarkerTd doc).length) ∧
    (∀ doc : Node, findAllInNode isMarkerTd doc = [] → parse_all_partners doc = []) ∧
    (parse_all_partners egFiveDoc).length = 5 ∧
    (parse_all_partners egFiveDoc).map PartnerRecord.number = ["1", "2", "3", "4", "5"] ∧
    parse_all_partners egEmptyDoc = [] := by
  have hfst : ∀ doc : Node,
      (segmentPairs doc).map Prod.fst = findAllInNode isMarkerTd doc :=
    fun doc => collectPairsNode_fst [] doc
  have hlen : ∀ doc : Node,
      (parse_all_partners doc).length = (findAllInNode isMarkerTd doc).length := by
    intro doc
    rw [← hfst doc]
    simp [parse_all_partners]
  refine ⟨hfst, hlen, ?_, by decide, by decide, by decide⟩
  intro doc h
  have h0 : (segmentPairs doc).map Prod.fst = [] := by rw [hfst doc, h]
  have h1 : segmentPairs doc = [] := List.map_eq_nil_iff.mp h0
  simp [parse_all_partners, h1]

/-- Witness for C8: the no-marker rule applied to the empty document. -/
theorem claimC8_segmenter_witness : parse_all_partners egEmptyDoc = [] :=
  claimC8_segmenter.2.2.1 egEmptyDoc rfl

/-- Witness for C9: the general rule applied to the concrete address row. -/
theorem claimC9_officeAddress_witness :
    (parse_partner_row (some egFragAddress)).officeAddress =
      clean_text (getText egAddressSpan) :=
  claimC9_officeAddress.1 egFragAddress egAddressSpan
    (Node.elem "span" [("class", "pl-results-value")] (nodes [Node.text "1 Main St"]))
    rfl rfl

end Scraper
